import Mathlib

/-!
Verification development for the Introspect journaling application
(Electron GUI shell `src/electron/main.js`, React frontend
`src/frontend/src/App.jsx`, and its earlier revisions under `src/unnamed/`).

The definitions below are shallow embeddings of the JavaScript source:
JavaScript numbers that only ever hold integers are modelled as `Int`,
`Math.floor` of a quotient as `Int.fdiv`, strings as Lean `String`, the
`pendingRequests` `Map` (whose values are promise handlers) as the list of
its integer keys, and the event-driven main process as an explicit step
function over a state record.
-/

namespace Introspect

/-! ## Frontend: `src/frontend/src/App.jsx` -/

/-- A similarity match as consumed by the frontend `PatternTimeline`
component: `{text, mood, timestamp, similarity}`.  The timestamp is the
epoch-millisecond value of `new Date(entry.timestamp)`. -/
structure SimilarEntry where
  text : String
  mood : Int
  timestamp : Int
  similarity : ℚ
deriving DecidableEq, Repr

/-- `App.jsx` line 32: `Math.floor((now - pastDate) / (1000*60*60*24))`.
`Int.fdiv` is floor division, matching `Math.floor` on a real quotient of
integers. -/
def daysAgo (nowMs pastMs : Int) : Int :=
  Int.fdiv (nowMs - pastMs) 86400000

/-- `App.jsx` lines 35-40: the relative-time phrase shown for the most
similar match, bucketed on the whole-day difference. -/
def timePhrase (d : Int) : String :=
  if d = 0 then "Earlier today"
  else if d = 1 then "Yesterday"
  else if d < 7 then toString d ++ " days ago"
  else if d < 30 then toString (Int.fdiv d 7) ++ " weeks ago"
  else toString (Int.fdiv d 30) ++ " months ago"

/-- The data that the `PatternTimeline` component derives from its props
and renders: the relative-time phrase for the most similar match, the
`patternImproved` flag (line 43), and the two texts chosen by that flag
(lines 138-150). -/
structure TimelineView where
  phrase : String
  patternImproved : Bool
  nextTimeLabel : String
  nextTimeMessage : String
deriving DecidableEq, Repr

/-- `App.jsx` lines 23-43: `PatternTimeline` renders nothing when
`similarEntries` is empty; otherwise it uses `similarEntries[0]` as the
most similar match. -/
def patternTimeline (nowMs : Int) (currentMood : Int)
    (similarEntries : List SimilarEntry) : Option TimelineView :=
  match similarEntries with
  | [] => none
  | mostSimilar :: _ =>
    let tp := timePhrase (daysAgo nowMs mostSimilar.timestamp)
    let improved := decide (mostSimilar.mood < currentMood)
    some
      { phrase := tp
        patternImproved := improved
        nextTimeLabel := if improved then "Pattern improving" else "What helps?"
        nextTimeMessage :=
          if improved then
            "Your mood improved from last time! Keep doing what works."
          else "What helped you move forward before?" }

/-- The payload the renderer sends for entry creation
(`App.jsx` lines 204-207): `{content, mood_rating}`. -/
structure EntryData where
  content : String
  mood_rating : Int
deriving DecidableEq, Repr

/-- JavaScript `String.prototype.trim`: strip whitespace from both ends
of the string. -/
def jsTrim (s : String) : String :=
  ⟨((s.data.dropWhile Char.isWhitespace).reverse.dropWhile Char.isWhitespace).reverse⟩

/-- `App.jsx` lines 193-207 (`handleSubmit`): if the trimmed content has
fewer than 10 characters the user is alerted and no request is sent
(`none`); otherwise a create-entry request with the trimmed content and
the current mood is issued. -/
def handleSubmit (content : String) (mood : Int) : Option EntryData :=
  if (jsTrim content).length < 10 then none
  else some { content := jsTrim content, mood_rating := mood }

/-- `App.jsx` line 325: the labels of the five mood-rating buttons. -/
def ratingValues : List Int := [1, 2, 3, 4, 5]

/-- The only ways the `mood` state is ever written (`App.jsx`):
`setMood(num)` from a rating button (line 329) and `setMood(3)` in
`handleNewEntry` (line 239). -/
inductive UiMoodEvent where
  | clickRating (i : Fin ratingValues.length)
  | newEntry

/-- The effect of a mood-state write on the `mood` state. -/
def moodStep (m : Int) : UiMoodEvent → Int
  | .clickRating i => ratingValues.get i
  | .newEntry => 3

/-- `App.jsx` line 171: `useState(3)`. -/
def moodInit : Int := 3

/-- The mood state after a sequence of UI events, starting from the
initial state. -/
def moodAfter (evs : List UiMoodEvent) : Int :=
  evs.foldl moodStep moodInit

/-! ## Worker-side insight builder (modelled from the spec)

The Python worker (`backend/electron_bridge.py` and the analysis code it
calls) is not part of the files under `src/`; what follows models the
mood-trend part of its insight synthesis from the specification text. -/

/-- Modelled from the spec: the three mood-trend cases the insight builder
distinguishes ("whether mood improved, worsened, or stayed flat"). -/
inductive MoodTrend where
  | improved
  | worsened
  | flat
deriving DecidableEq

/-- Modelled from the spec: the worker-side insight builder (absent from
`src/`) compares the most similar qualifying entry's mood rating to the
new entry's mood rating and classifies the trend. -/
def classifyMoodTrend (pastMood newMood : Int) : MoodTrend :=
  if pastMood < newMood then .improved
  else if newMood < pastMood then .worsened
  else .flat

/-- Modelled from the spec: the insight builder selects a template based
on the mood trend; the three templates are distinct sentences. -/
def insightTemplate : MoodTrend → String
  | .improved => "You wrote about something similar before, and your mood has improved since then."
  | .worsened => "You wrote about something similar before, and your mood has dipped since then."
  | .flat => "You wrote about something similar before, and your mood is about the same."

/-! ## Electron main process: `src/electron/main.js`

The mutable module state is `pythonReady`, `requestIdCounter` and the
`pendingRequests` map (`main.js` lines 8-12).  Only the map's keys matter
for the protocol logic (its values are the `{resolve, reject}` promise
handlers, which we represent by emitting `Settle` records when they are
invoked), so the map is modelled as the list of its integer keys. -/

/-- The mutable state of the main process. -/
structure MainState where
  pythonReady : Bool
  requestIdCounter : Int
  pending : List Int
deriving DecidableEq, Repr

/-- `main.js` lines 8-12: `pythonReady = false`, `requestIdCounter = 0`,
`pendingRequests = new Map()`. -/
def initState : MainState := { pythonReady := false, requestIdCounter := 0, pending := [] }

/-- The `data` field of an outgoing request: `entryData` for
`create_entry` (`main.js` line 194), `{ limit }` for `get_entries`
(line 216), `{}` for `get_stats` (line 236). -/
inductive ReqData where
  | entry (e : EntryData)
  | limitData (limit : Int)
  | emptyData
deriving DecidableEq, Repr

/-- The object serialized onto the worker's stdin
(`main.js` line 156): `{ command, data, requestId }`. -/
structure WireMsg where
  command : String
  data : ReqData
  requestId : Int
deriving DecidableEq, Repr

/-- The three IPC invocations registered with `ipcMain.handle`
(`main.js` lines 189, 213, 233).  `get-entries` takes an optional limit
argument with default 20 (`(event, limit = 20)`); `none` models a missing
argument. -/
inductive IpcCommand where
  | createEntry (e : EntryData)
  | getEntries (limit : Option Int)
  | getStats

/-- `main.js` lines 150-161 (`sendToPython`): throw if the worker is not
ready; otherwise consume the current counter value as the request id,
increment the counter, and write the message.  The returned triple is
(request id, wire message, new state). -/
def sendToPython (s : MainState) (command : String) (data : ReqData) :
    Except String (Int × WireMsg × MainState) :=
  if s.pythonReady = false then
    Except.error "Python subprocess not ready"
  else
    let requestId := s.requestIdCounter
    Except.ok (requestId, { command := command, data := data, requestId := requestId },
      { s with requestIdCounter := s.requestIdCounter + 1 })

/-- JavaScript `Map.set` on the key set: insert the key if absent. -/
def mapSet (pending : List Int) (rid : Int) : List Int :=
  if rid ∈ pending then pending else rid :: pending

/-- JavaScript `Map.delete` on the key set. -/
def mapDelete (pending : List Int) (rid : Int) : List Int :=
  pending.filter (fun p => p != rid)

/-- Outcome of one `ipcMain.handle` invocation: either a request was sent
(with the wire message, the armed timeout in milliseconds and the error
message its timer would reject with), or the promise was rejected
immediately with an error. -/
inductive HandleOutcome where
  | sent (requestId : Int) (wire : WireMsg) (timeoutMs : Nat) (timeoutErr : String)
  | notSent (err : String)
deriving DecidableEq, Repr

/-- `main.js` lines 189-250: the three IPC handlers.  Each one calls
`sendToPython`, stores the promise handlers under the request id, and
arms a command-specific timeout (30000 ms for `create-entry`, 5000 ms for
`get-entries` and `get-stats`); if `sendToPython` throws, the promise is
rejected at once and no pending entry is created. -/
def handleCommand (s : MainState) : IpcCommand → MainState × HandleOutcome
  | .createEntry e =>
    match sendToPython s "create_entry" (.entry e) with
    | .ok (rid, w, s') =>
      ({ s' with pending := mapSet s'.pending rid },
        .sent rid w 30000 "Python subprocess timeout")
    | .error err => (s, .notSent err)
  | .getEntries lim =>
    let limit := lim.getD 20
    match sendToPython s "get_entries" (.limitData limit) with
    | .ok (rid, w, s') =>
      ({ s' with pending := mapSet s'.pending rid }, .sent rid w 5000 "Timeout")
    | .error err => (s, .notSent err)
  | .getStats =>
    match sendToPython s "get_stats" .emptyData with
    | .ok (rid, w, s') =>
      ({ s' with pending := mapSet s'.pending rid }, .sent rid w 5000 "Timeout")
    | .error err => (s, .notSent err)

/-- A line of worker stdout, after the `JSON.parse` attempt of
`main.js` line 108: either it failed to parse (`notJson`), or it yielded
an object whose `type`, `requestId` and `error` fields are inspected
(`requestId = none` models an absent field). -/
inductive PyLine where
  | notJson (raw : String)
  | json (type : String) (requestId : Option Int) (error : String)

/-- A settlement of a promise created by an IPC handler: `resolved` /
`rejected` carry the request id whose handlers were invoked;
`rejectedNoId` is the immediate rejection of a request that was never
assigned an id (`reject(error)` in the handlers' catch blocks). -/
inductive Settle where
  | resolved (rid : Int)
  | rejected (rid : Int) (err : String)
  | rejectedNoId (err : String)
deriving DecidableEq, Repr

/-- `main.js` lines 106-135 (`rl.on("line")`): a non-JSON line is only
logged; `"ready"` sets the ready flag; `"response"` / `"error"` settle the
pending request with the carried id, if any is pending, deleting it from
the map first; any other `type` is ignored. -/
def handleLine (s : MainState) : PyLine → MainState × List Settle
  | .notJson _ => (s, [])
  | .json type requestId error =>
    if type = "ready" then
      ({ s with pythonReady := true }, [])
    else if type = "response" then
      match requestId with
      | some rid =>
        if rid ∈ s.pending then
          ({ s with pending := mapDelete s.pending rid }, [.resolved rid])
        else (s, [])
      | none => (s, [])
    else if type = "error" then
      match requestId with
      | some rid =>
        if rid ∈ s.pending then
          ({ s with pending := mapDelete s.pending rid }, [.rejected rid error])
        else (s, [])
      | none => (s, [])
    else (s, [])

/-! ### Serialization

`main.js` line 156: `JSON.stringify({ command, data, requestId }) + "\n"`.
The embedding renders the three-key object the way `JSON.stringify` does:
keys in insertion order, strings escaped (in particular a newline inside
a string becomes the two characters `\` `n`, never a raw newline), and
integer numbers in decimal. -/

/-- `JSON.stringify` string escaping, restricted to the escapes relevant
here; any character that is not escaped is emitted as itself (no
unescaped character is a raw newline, because `'\n'` is escaped). -/
def jsonEscapeChar (c : Char) : List Char :=
  if c = '"' then ['\\', '"']
  else if c = '\\' then ['\\', '\\']
  else if c = '\n' then ['\\', 'n']
  else if c = '\r' then ['\\', 'r']
  else if c = '\t' then ['\\', 't']
  else [c]

/-- Escape a whole string. -/
def jsonEscape (s : String) : String :=
  ⟨s.data.flatMap jsonEscapeChar⟩

/-- The decimal digit character for a value below 10. -/
def digitChar (d : Nat) : Char := Char.ofNat (48 + d)

/-- Decimal rendering of a natural number, as `JSON.stringify` renders a
non-negative integer. -/
def natRepr (n : Nat) : String :=
  if n = 0 then "0" else ⟨((Nat.digits 10 n).reverse).map digitChar⟩

/-- Decimal rendering of an integer. -/
def intRepr (i : Int) : String :=
  if i < 0 then "-" ++ natRepr i.natAbs else natRepr i.natAbs

/-- `JSON.stringify` of the `data` object of a request. -/
def stringifyData : ReqData → String
  | .entry e =>
    "\x7b\"content\":\"" ++ jsonEscape e.content ++ "\",\"mood_rating\":"
      ++ intRepr e.mood_rating ++ "\x7d"
  | .limitData l => "\x7b\"limit\":" ++ intRepr l ++ "\x7d"
  | .emptyData => "\x7b\x7d"

/-- `JSON.stringify({ command, data, requestId })`. -/
def stringifyWireMsg (m : WireMsg) : String :=
  "\x7b\"command\":\"" ++ jsonEscape m.command ++ "\",\"data\":"
    ++ stringifyData m.data ++ ",\"requestId\":" ++ intRepr m.requestId ++ "\x7d"

/-- The exact string written to the worker's stdin for one request. -/
def wireLine (m : WireMsg) : String := stringifyWireMsg m ++ "\n"

/-- The events the main process reacts to: an IPC invocation from the
renderer, a line of worker stdout, a timeout timer firing for a request
id (carrying the error message it was armed with), and the worker
process's `close` event (`main.js` lines 141-144). -/
inductive MainEvent where
  | ipc (c : IpcCommand)
  | pyLine (l : PyLine)
  | timeoutFire (rid : Int) (msg : String)
  | procClose (code : Int)

/-- The observable effects of one event: the new state, the promise
settlements performed, the strings written to the worker's stdin, and the
request ids allocated. -/
structure StepResult where
  state : MainState
  settles : List Settle
  writes : List String
  sentIds : List Int

/-- One transition of the main process.  The timeout branch is
`main.js` lines 200-205 / 220-225 / 240-245: if the id is still pending,
delete it and reject with the armed error message; otherwise do
nothing. -/
def step (s : MainState) : MainEvent → StepResult
  | .ipc c =>
    match handleCommand s c with
    | (s', .sent rid w _ _) => { state := s', settles := [], writes := [wireLine w], sentIds := [rid] }
    | (s', .notSent err) => { state := s', settles := [.rejectedNoId err], writes := [], sentIds := [] }
  | .pyLine l =>
    let r := handleLine s l
    { state := r.1, settles := r.2, writes := [], sentIds := [] }
  | .timeoutFire rid msg =>
    if rid ∈ s.pending then
      { state := { s with pending := mapDelete s.pending rid },
        settles := [.rejected rid msg], writes := [], sentIds := [] }
    else { state := s, settles := [], writes := [], sentIds := [] }
  | .procClose _ =>
    { state := { s with pythonReady := false }, settles := [], writes := [], sentIds := [] }

/-- An execution trace: the current state plus the accumulated
settlements, stdin writes and allocated request ids, in order. -/
structure Trace where
  state : MainState
  settles : List Settle
  writes : List String
  sentIds : List Int

/-- The trace at application start. -/
def initTrace : Trace :=
  { state := initState, settles := [], writes := [], sentIds := [] }

/-- Extend a trace by one event. -/
def stepT (t : Trace) (e : MainEvent) : Trace :=
  let r := step t.state e
  { state := r.state, settles := t.settles ++ r.settles,
    writes := t.writes ++ r.writes, sentIds := t.sentIds ++ r.sentIds }

/-- The trace after a sequence of events from application start. -/
def runT (evs : List MainEvent) : Trace :=
  evs.foldl stepT initTrace

/-- The request ids of the settlements that invoked a stored promise
handler (immediate no-id rejections carry no request id). -/
def settledIds (l : List Settle) : List Int :=
  l.filterMap fun st =>
    match st with
    | .resolved rid => some rid
    | .rejected rid _ => some rid
    | .rejectedNoId _ => none

/-- The inductive invariant of the main process: pending keys are
distinct and below the counter, request ids were allocated in strictly
increasing order and lie below the counter, and every id whose promise
handlers were invoked was settled exactly once, lies below the counter,
and is no longer pending. -/
def TraceInv (t : Trace) : Prop :=
  t.state.pending.Nodup ∧
  (∀ p ∈ t.state.pending, p < t.state.requestIdCounter) ∧
  List.Pairwise (· < ·) t.sentIds ∧
  (∀ x ∈ t.sentIds, x < t.state.requestIdCounter) ∧
  (settledIds t.settles).Nodup ∧
  (∀ x ∈ settledIds t.settles, x < t.state.requestIdCounter ∧ x ∉ t.state.pending)

/-! ## Helper lemmas -/

theorem patternTimeline_cons (nowMs cur : Int) (m : SimilarEntry) (rest : List SimilarEntry) :
    patternTimeline nowMs cur (m :: rest) =
      some
        { phrase := timePhrase (daysAgo nowMs m.timestamp)
          patternImproved := decide (m.mood < cur)
          nextTimeLabel := if decide (m.mood < cur) then "Pattern improving" else "What helps?"
          nextTimeMessage :=
            if decide (m.mood < cur) then
              "Your mood improved from last time! Keep doing what works."
            else "What helped you move forward before?" } := rfl

theorem handleSubmit_some {content : String} {mood : Int} {e : EntryData}
    (h : handleSubmit content mood = some e) :
    e.content = jsTrim content ∧ 10 ≤ e.content.length ∧ e.mood_rating = mood := by
  unfold handleSubmit at h
  split at h
  · exact absurd h (by simp)
  · next hlen =>
    cases h
    refine ⟨rfl, ?_, rfl⟩
    show 10 ≤ (jsTrim content).length
    omega

theorem moodStep_bounds (m : Int) (e : UiMoodEvent) :
    1 ≤ moodStep m e ∧ moodStep m e ≤ 5 := by
  cases e with
  | newEntry => exact ⟨by norm_num [moodStep], by norm_num [moodStep]⟩
  | clickRating i =>
    show 1 ≤ ratingValues.get i ∧ ratingValues.get i ≤ 5
    have hmem : ratingValues.get i ∈ ratingValues := List.get_mem ratingValues i.1 i.2
    have hall : ∀ x ∈ ratingValues, 1 ≤ x ∧ x ≤ 5 := by decide
    exact hall _ hmem

theorem moodFold_bounds (evs : List UiMoodEvent) :
    ∀ m : Int, 1 ≤ m → m ≤ 5 →
      1 ≤ evs.foldl moodStep m ∧ evs.foldl moodStep m ≤ 5 := by
  induction evs with
  | nil => intro m h1 h2; exact ⟨h1, h2⟩
  | cons e es ih =>
    intro m _ _
    simp only [List.foldl_cons]
    exact ih _ (moodStep_bounds m e).1 (moodStep_bounds m e).2

theorem handleCommand_notReady (s : MainState) (h : s.pythonReady = false) (c : IpcCommand) :
    handleCommand s c = (s, .notSent "Python subprocess not ready") := by
  cases c <;> simp [handleCommand, sendToPython, h]

theorem handleCommand_createEntry (s : MainState) (h : s.pythonReady = true) (e : EntryData) :
    handleCommand s (.createEntry e) =
      ({ s with requestIdCounter := s.requestIdCounter + 1,
                pending := mapSet s.pending s.requestIdCounter },
        .sent s.requestIdCounter
          { command := "create_entry", data := .entry e, requestId := s.requestIdCounter }
          30000 "Python subprocess timeout") := by
  simp [handleCommand, sendToPython, h]

theorem handleCommand_getEntries (s : MainState) (h : s.pythonReady = true) (lim : Option Int) :
    handleCommand s (.getEntries lim) =
      ({ s with requestIdCounter := s.requestIdCounter + 1,
                pending := mapSet s.pending s.requestIdCounter },
        .sent s.requestIdCounter
          { command := "get_entries", data := .limitData (lim.getD 20),
            requestId := s.requestIdCounter }
          5000 "Timeout") := by
  simp [handleCommand, sendToPython, h]

theorem handleCommand_getStats (s : MainState) (h : s.pythonReady = true) :
    handleCommand s .getStats =
      ({ s with requestIdCounter := s.requestIdCounter + 1,
                pending := mapSet s.pending s.requestIdCounter },
        .sent s.requestIdCounter
          { command := "get_stats", data := .emptyData, requestId := s.requestIdCounter }
          5000 "Timeout") := by
  simp [handleCommand, sendToPython, h]

theorem mem_mapDelete {l : List Int} {rid x : Int} :
    x ∈ mapDelete l rid ↔ x ∈ l ∧ x ≠ rid := by
  simp [mapDelete, List.mem_filter, bne_iff_ne]

theorem mapSet_fresh {l : List Int} {rid : Int} (h : rid ∉ l) :
    mapSet l rid = rid :: l := by
  simp [mapSet, h]

theorem settledIds_append (a b : List Settle) :
    settledIds (a ++ b) = settledIds a ++ settledIds b := by
  simp [settledIds, List.filterMap_append]

theorem handleLine_response_notPending {s : MainState} {rid : Int} (h : rid ∉ s.pending)
    (err : String) :
    handleLine s (.json "response" (some rid) err) = (s, []) := by
  simp [handleLine, h]

theorem handleLine_error_notPending {s : MainState} {rid : Int} (h : rid ∉ s.pending)
    (err : String) :
    handleLine s (.json "error" (some rid) err) = (s, []) := by
  simp [handleLine, h]

/-- No character of the string is a raw newline; a string with this
property occupies exactly one line of the line-delimited protocol. -/
def noNewline (s : String) : Prop := ∀ ch ∈ s.data, ch ≠ '\n'

theorem noNewline_append {a b : String} (ha : noNewline a) (hb : noNewline b) :
    noNewline (a ++ b) := by
  intro ch hch
  rw [String.data_append] at hch
  rcases List.mem_append.mp hch with h | h
  exacts [ha ch h, hb ch h]

theorem noNewline_of_all {s : String} (h : s.data.all (fun c => c != '\n') = true) :
    noNewline s := by
  intro ch hch
  simpa using List.all_eq_true.mp h ch hch

theorem jsonEscapeChar_ne_newline (c : Char) : ∀ ch ∈ jsonEscapeChar c, ch ≠ '\n' := by
  intro ch hch
  unfold jsonEscapeChar at hch
  by_cases h1 : c = '"'
  · rw [if_pos h1] at hch
    simp only [List.mem_cons, List.not_mem_nil, or_false] at hch
    rcases hch with h | h <;> subst h <;> decide
  rw [if_neg h1] at hch
  by_cases h2 : c = '\\'
  · rw [if_pos h2] at hch
    simp only [List.mem_cons, List.not_mem_nil, or_false] at hch
    rcases hch with h | h <;> subst h <;> decide
  rw [if_neg h2] at hch
  by_cases h3 : c = '\n'
  · rw [if_pos h3] at hch
    simp only [List.mem_cons, List.not_mem_nil, or_false] at hch
    rcases hch with h | h <;> subst h <;> decide
  rw [if_neg h3] at hch
  by_cases h4 : c = '\r'
  · rw [if_pos h4] at hch
    simp only [List.mem_cons, List.not_mem_nil, or_false] at hch
    rcases hch with h | h <;> subst h <;> decide
  rw [if_neg h4] at hch
  by_cases h5 : c = '\t'
  · rw [if_pos h5] at hch
    simp only [List.mem_cons, List.not_mem_nil, or_false] at hch
    rcases hch with h | h <;> subst h <;> decide
  rw [if_neg h5] at hch
  simp only [List.mem_singleton] at hch
  subst hch
  exact h3

theorem noNewline_jsonEscape (s : String) : noNewline (jsonEscape s) := by
  intro ch hch
  have hm : ch ∈ s.data.flatMap jsonEscapeChar := hch
  rw [List.mem_flatMap] at hm
  obtain ⟨c, -, hc⟩ := hm
  exact jsonEscapeChar_ne_newline c ch hc

theorem noNewline_natRepr (n : Nat) : noNewline (natRepr n) := by
  intro ch hch
  unfold natRepr at hch
  split at hch
  · have h0 : ch ∈ ['0'] := hch
    simp only [List.mem_singleton] at h0
    subst h0
    decide
  · have hm : ch ∈ ((Nat.digits 10 n).reverse).map digitChar := hch
    rw [List.mem_map] at hm
    obtain ⟨d, hd, rfl⟩ := hm
    have hd10 : d < 10 := Nat.digits_lt_base (by norm_num) (List.mem_reverse.mp hd)
    interval_cases d <;> decide

theorem noNewline_intRepr (i : Int) : noNewline (intRepr i) := by
  unfold intRepr
  split
  · refine noNewline_append ?_ (noNewline_natRepr _)
    exact noNewline_of_all (by decide)
  · exact noNewline_natRepr _

theorem noNewline_stringifyData (d : ReqData) : noNewline (stringifyData d) := by
  cases d <;> unfold stringifyData <;> repeat' apply noNewline_append
  all_goals first
    | exact noNewline_jsonEscape _
    | exact noNewline_intRepr _
    | exact noNewline_of_all (by decide)

theorem noNewline_stringifyWireMsg (m : WireMsg) : noNewline (stringifyWireMsg m) := by
  unfold stringifyWireMsg
  repeat' apply noNewline_append
  all_goals first
    | exact noNewline_jsonEscape _
    | exact noNewline_stringifyData _
    | exact noNewline_intRepr _
    | exact noNewline_of_all (by decide)

theorem settledIds_rejectedNoId (err : String) : settledIds [.rejectedNoId err] = [] := rfl

theorem settledIds_resolved (rid : Int) : settledIds [.resolved rid] = [rid] := rfl

theorem settledIds_rejected (rid : Int) (err : String) :
    settledIds [.rejected rid err] = [rid] := rfl

theorem step_ipc_ready (s : MainState) (hr : s.pythonReady = true) (c : IpcCommand) :
    ∃ w : WireMsg,
      step s (.ipc c) =
        { state := { s with
              requestIdCounter := s.requestIdCounter + 1
              pending := mapSet s.pending s.requestIdCounter },
          settles := [], writes := [wireLine w], sentIds := [s.requestIdCounter] } := by
  cases c with
  | createEntry e =>
    exact ⟨{ command := "create_entry", data := .entry e, requestId := s.requestIdCounter },
      by simp [step, handleCommand_createEntry s hr e]⟩
  | getEntries lim =>
    exact ⟨{ command := "get_entries", data := .limitData (lim.getD 20),
             requestId := s.requestIdCounter },
      by simp [step, handleCommand_getEntries s hr lim]⟩
  | getStats =>
    exact ⟨{ command := "get_stats", data := .emptyData, requestId := s.requestIdCounter },
      by simp [step, handleCommand_getStats s hr]⟩

theorem handleLine_cases (s : MainState) (l : PyLine) :
    (∃ b, handleLine s l = ({ s with pythonReady := b }, [])) ∨
    (∃ rid st, rid ∈ s.pending ∧ settledIds [st] = [rid] ∧
      handleLine s l = ({ s with pending := mapDelete s.pending rid }, [st])) := by
  cases l with
  | notJson raw => exact Or.inl ⟨s.pythonReady, rfl⟩
  | json type requestId error =>
    by_cases hty1 : type = "ready"
    · exact Or.inl ⟨true, by simp [handleLine, hty1]⟩
    by_cases hty2 : type = "response"
    · cases requestId with
      | none => exact Or.inl ⟨s.pythonReady, by simp [handleLine, hty1, hty2]⟩
      | some rid =>
        by_cases hmem : rid ∈ s.pending
        · exact Or.inr ⟨rid, .resolved rid, hmem, rfl,
            by simp [handleLine, hty1, hty2, hmem]⟩
        · exact Or.inl ⟨s.pythonReady, by simp [handleLine, hty1, hty2, hmem]⟩
    by_cases hty3 : type = "error"
    · cases requestId with
      | none => exact Or.inl ⟨s.pythonReady, by simp [handleLine, hty1, hty2, hty3]⟩
      | some rid =>
        by_cases hmem : rid ∈ s.pending
        · exact Or.inr ⟨rid, .rejected rid error, hmem, rfl,
            by simp [handleLine, hty1, hty2, hty3, hmem]⟩
        · exact Or.inl ⟨s.pythonReady, by simp [handleLine, hty1, hty2, hty3, hmem]⟩
    exact Or.inl ⟨s.pythonReady, by simp [handleLine, hty1, hty2, hty3]⟩

theorem traceInv_init : TraceInv initTrace := by
  refine ⟨List.nodup_nil, ?_, List.Pairwise.nil, ?_, List.nodup_nil, ?_⟩ <;>
    simp [initTrace, initState, settledIds]

theorem traceInv_noop {t : Trace} (h : TraceInv t) (s' : MainState) (w : List String)
    (sl : List Settle) (hsl : settledIds sl = [])
    (hp : s'.pending = t.state.pending)
    (hc : s'.requestIdCounter = t.state.requestIdCounter) :
    TraceInv { state := s', settles := t.settles ++ sl, writes := w,
               sentIds := t.sentIds ++ [] } := by
  obtain ⟨hnd, hplt, hpw, hslt, hstn, hstp⟩ := h
  refine ⟨?_, ?_, ?_, ?_, ?_, ?_⟩
  · simpa [hp] using hnd
  · intro p hmem
    rw [hp] at hmem
    rw [hc]
    exact hplt p hmem
  · simpa using hpw
  · intro x hx
    simp only [List.append_nil] at hx
    rw [hc]
    exact hslt x hx
  · rw [settledIds_append, hsl]
    simpa using hstn
  · intro x hx
    rw [settledIds_append, hsl, List.append_nil] at hx
    rw [hc, hp]
    exact hstp x hx

theorem traceInv_settle {t : Trace} (h : TraceInv t) {rid : Int}
    (hmem : rid ∈ t.state.pending) (st : Settle) (hid : settledIds [st] = [rid])
    (w : List String) :
    TraceInv { state := { t.state with pending := mapDelete t.state.pending rid },
               settles := t.settles ++ [st], writes := w,
               sentIds := t.sentIds ++ [] } := by
  obtain ⟨hnd, hplt, hpw, hslt, hstn, hstp⟩ := h
  have hridlt : rid < t.state.requestIdCounter := hplt rid hmem
  have hridset : rid ∉ settledIds t.settles := fun hx => (hstp rid hx).2 hmem
  refine ⟨?_, ?_, ?_, ?_, ?_, ?_⟩
  · exact hnd.filter _
  · intro p hp
    exact hplt p (mem_mapDelete.mp hp).1
  · simpa using hpw
  · intro x hx
    simp only [List.append_nil] at hx
    exact hslt x hx
  · rw [settledIds_append, hid, List.nodup_append]
    refine ⟨hstn, List.nodup_singleton rid, ?_⟩
    intro x hx hy
    simp only [List.mem_singleton] at hy
    subst hy
    exact hridset hx
  · intro x hx
    rw [settledIds_append, hid] at hx
    rcases List.mem_append.mp hx with hx | hx
    · obtain ⟨hlt, hnp⟩ := hstp x hx
      exact ⟨hlt, fun hmem' => hnp (mem_mapDelete.mp hmem').1⟩
    · simp only [List.mem_singleton] at hx
      subst hx
      exact ⟨hridlt, fun hmem' => (mem_mapDelete.mp hmem').2 rfl⟩

theorem stepT_inv {t : Trace} (h : TraceInv t) (e : MainEvent) : TraceInv (stepT t e) := by
  cases e with
  | ipc c =>
    cases hr : t.state.pythonReady with
    | false =>
      have hstep : stepT t (.ipc c) =
          { state := t.state,
            settles := t.settles ++ [.rejectedNoId "Python subprocess not ready"],
            writes := t.writes ++ [], sentIds := t.sentIds ++ [] } := by
        simp [stepT, step, handleCommand_notReady t.state hr c]
      rw [hstep]
      exact traceInv_noop h _ _ _ (settledIds_rejectedNoId _) rfl rfl
    | true =>
      obtain ⟨hnd, hplt, hpw, hslt, hstn, hstp⟩ := h
      obtain ⟨w, hstep⟩ := step_ipc_ready t.state hr c
      have hstepT : stepT t (.ipc c) =
          { state := { t.state with
                requestIdCounter := t.state.requestIdCounter + 1
                pending := mapSet t.state.pending t.state.requestIdCounter },
            settles := t.settles ++ [], writes := t.writes ++ [wireLine w],
            sentIds := t.sentIds ++ [t.state.requestIdCounter] } := by
        simp [stepT, hstep]
      rw [hstepT]
      have hfresh : t.state.requestIdCounter ∉ t.state.pending :=
        fun hmem => lt_irrefl _ (hplt _ hmem)
      refine ⟨?_, ?_, ?_, ?_, ?_, ?_⟩ <;> dsimp only
      · rw [mapSet_fresh hfresh]
        exact List.nodup_cons.mpr ⟨hfresh, hnd⟩
      · intro p hp
        rw [mapSet_fresh hfresh] at hp
        rcases List.mem_cons.mp hp with hp | hp
        · omega
        · have := hplt p hp
          omega
      · rw [List.pairwise_append]
        refine ⟨hpw, by simp, ?_⟩
        intro a ha b hb
        simp only [List.mem_singleton] at hb
        subst hb
        exact hslt a ha
      · intro x hx
        rcases List.mem_append.mp hx with hx | hx
        · have := hslt x hx
          omega
        · simp only [List.mem_singleton] at hx
          omega
      · rw [settledIds_append]
        simpa [settledIds] using hstn
      · intro x hx
        rw [settledIds_append] at hx
        simp only [settledIds, List.filterMap_nil, List.append_nil] at hx
        obtain ⟨hlt, hnp⟩ := hstp x hx
        refine ⟨by omega, ?_⟩
        rw [mapSet_fresh hfresh]
        intro hmem
        rcases List.mem_cons.mp hmem with hmem | hmem
        · omega
        · exact hnp hmem
  | pyLine l =>
    rcases handleLine_cases t.state l with ⟨b, hl⟩ | ⟨rid, st, hmem, hid, hl⟩
    · have hstep : stepT t (.pyLine l) =
          { state := { t.state with pythonReady := b }, settles := t.settles ++ [],
            writes := t.writes ++ [], sentIds := t.sentIds ++ [] } := by
        simp [stepT, step, hl]
      rw [hstep]
      exact traceInv_noop h _ _ _ rfl rfl rfl
    · have hstep : stepT t (.pyLine l) =
          { state := { t.state with pending := mapDelete t.state.pending rid },
            settles := t.settles ++ [st], writes := t.writes ++ [],
            sentIds := t.sentIds ++ [] } := by
        simp [stepT, step, hl]
      rw [hstep]
      exact traceInv_settle h hmem st hid _
  | timeoutFire rid msg =>
    by_cases hmem : rid ∈ t.state.pending
    · have hstep : stepT t (.timeoutFire rid msg) =
          { state := { t.state with pending := mapDelete t.state.pending rid },
            settles := t.settles ++ [.rejected rid msg], writes := t.writes ++ [],
            sentIds := t.sentIds ++ [] } := by
        simp [stepT, step, hmem]
      rw [hstep]
      exact traceInv_settle h hmem _ (settledIds_rejected rid msg) _
    · have hstep : stepT t (.timeoutFire rid msg) =
          { state := t.state, settles := t.settles ++ [], writes := t.writes ++ [],
            sentIds := t.sentIds ++ [] } := by
        simp [stepT, step, hmem]
      rw [hstep]
      exact traceInv_noop h _ _ _ rfl rfl rfl
  | procClose code =>
    have hstep : stepT t (.procClose code) =
        { state := { t.state with pythonReady := false }, settles := t.settles ++ [],
          writes := t.writes ++ [], sentIds := t.sentIds ++ [] } := by
      simp [stepT, step]
    rw [hstep]
    exact traceInv_noop h _ _ _ rfl rfl rfl

theorem runT_inv (evs : List MainEvent) : TraceInv (runT evs) := by
  have hgen : ∀ (l : List MainEvent) (t : Trace), TraceInv t → TraceInv (l.foldl stepT t) := by
    intro l
    induction l with
    | nil => intro t ht; exact ht
    | cons e es ih => intro t ht; exact ih _ (stepT_inv ht e)
  exact hgen evs initTrace traceInv_init

/-! ## Claims -/

/-- C1: the relative-time phrase shown for a displayed similarity match is
computed from the whole-day difference between now and the match's
timestamp and bucketed as: 0 days yields the "Earlier today" phrase,
exactly 1 day yields "Yesterday", 2-6 days yields an "N days ago" phrase,
7-29 days yields a "floor(days/7) weeks ago" phrase, and 30 or more days
yields a "floor(days/30) months ago" phrase; in particular exactly 1 day
before now yields "Yesterday" and exactly 8 days before now yields a
week-based phrase. -/
theorem c1_relative_time_bucketing :
    (∀ (nowMs cur : Int) (m : SimilarEntry) (rest : List SimilarEntry) (v : TimelineView),
        patternTimeline nowMs cur (m :: rest) = some v →
          v.phrase = timePhrase (daysAgo nowMs m.timestamp)) ∧
    timePhrase 0 = "Earlier today" ∧
    timePhrase 1 = "Yesterday" ∧
    (∀ d : Int, 2 ≤ d → d ≤ 6 → timePhrase d = toString d ++ " days ago") ∧
    (∀ d : Int, 7 ≤ d → d ≤ 29 →
        timePhrase d = toString (Int.fdiv d 7) ++ " weeks ago") ∧
    (∀ d : Int, 30 ≤ d →
        timePhrase d = toString (Int.fdiv d 30) ++ " months ago") ∧
    (∀ nowMs pastMs : Int, nowMs - pastMs = 86400000 →
        timePhrase (daysAgo nowMs pastMs) = "Yesterday") ∧
    (∀ nowMs pastMs : Int, nowMs - pastMs = 8 * 86400000 →
        timePhrase (daysAgo nowMs pastMs) = toString (Int.fdiv 8 7) ++ " weeks ago") := by
  refine ⟨?_, rfl, rfl, ?_, ?_, ?_, ?_, ?_⟩
  · intro nowMs cur m rest v h
    rw [patternTimeline_cons] at h
    cases h
    rfl
  · intro d h2 h6
    unfold timePhrase
    rw [if_neg (by omega), if_neg (by omega), if_pos (by omega)]
  · intro d h7 h29
    unfold timePhrase
    rw [if_neg (by omega), if_neg (by omega), if_neg (by omega), if_pos (by omega)]
  · intro d h30
    unfold timePhrase
    rw [if_neg (by omega), if_neg (by omega), if_neg (by omega), if_neg (by omega)]
  · intro nowMs pastMs h
    have hd : daysAgo nowMs pastMs = 1 := by unfold daysAgo; rw [h]; decide
    rw [hd]
    rfl
  · intro nowMs pastMs h
    have hd : daysAgo nowMs pastMs = 8 := by unfold daysAgo; rw [h]; decide
    rw [hd]
    unfold timePhrase
    rw [if_neg (by omega), if_neg (by omega), if_neg (by omega), if_pos (by omega)]

/-- Witness for C1 at concrete inputs: a match exactly 1 day old reads
"Yesterday" and one exactly 8 days old reads "1 weeks ago". -/
theorem c1_witness :
    timePhrase (daysAgo 86400000 0) = "Yesterday" ∧
    timePhrase (daysAgo (8 * 86400000) 0) = toString (Int.fdiv 8 7) ++ " weeks ago" ∧
    timePhrase 3 = toString (3 : Int) ++ " days ago" := by
  refine ⟨?_, ?_, ?_⟩
  · exact c1_relative_time_bucketing.2.2.2.2.2.2.1 86400000 0 (by decide)
  · exact c1_relative_time_bucketing.2.2.2.2.2.2.2 (8 * 86400000) 0 (by decide)
  · exact c1_relative_time_bucketing.2.2.2.1 3 (by decide) (by decide)

/-- C4: the pattern timeline classifies the trend against the most
similar match as improved exactly when the new entry's mood is strictly
greater than the matched past entry's mood; the (spec-modelled)
worker-side insight builder distinguishes improved, worsened and flat
trends and selects a distinct template for each. -/
theorem c4_mood_trend :
    (∀ (nowMs cur : Int) (m : SimilarEntry) (rest : List SimilarEntry) (v : TimelineView),
        patternTimeline nowMs cur (m :: rest) = some v →
          (v.patternImproved = true ↔ m.mood < cur)) ∧
    (∀ pastMood newMood : Int,
        (classifyMoodTrend pastMood newMood = .improved ↔ pastMood < newMood) ∧
        (classifyMoodTrend pastMood newMood = .worsened ↔ newMood < pastMood) ∧
        (classifyMoodTrend pastMood newMood = .flat ↔ pastMood = newMood)) ∧
    insightTemplate .improved ≠ insightTemplate .worsened ∧
    insightTemplate .improved ≠ insightTemplate .flat ∧
    insightTemplate .worsened ≠ insightTemplate .flat := by
  refine ⟨?_, ?_, by decide, by decide, by decide⟩
  · intro nowMs cur m rest v h
    rw [patternTimeline_cons] at h
    cases h
    exact decide_eq_true_iff
  · intro p n
    unfold classifyMoodTrend
    rcases lt_trichotomy p n with h | h | h
    · rw [if_pos h]
      refine ⟨by simp [h], by simp; omega, by simp; omega⟩
    · rw [if_neg (by omega), if_neg (by omega)]
      refine ⟨by simp; omega, by simp; omega, by simp [h]⟩
    · rw [if_neg (by omega), if_pos (by omega)]
      refine ⟨by simp; omega, by simp; omega, by simp; omega⟩

/-- Witness for C4: with past mood 2 and current mood 4 the timeline
reports an improvement and the builder classifies the trend as
improved. -/
theorem c4_witness :
    ((decide ((2 : Int) < 4) : Bool) = true ↔ (2 : Int) < 4) ∧
    (classifyMoodTrend 2 4 = .improved ↔ (2 : Int) < 4) := by
  constructor
  · exact c4_mood_trend.1 0 4 { text := "t", mood := 2, timestamp := 0, similarity := 0 } []
      _ (patternTimeline_cons 0 4 _ [])
  · exact (c4_mood_trend.2.1 2 4).1

/-- C8: the minimum entry length is enforced at the UI boundary: a form
submission whose whitespace-trimmed content has fewer than 10 characters
sends no create-entry request, and a request that is sent carries the
trimmed (hence non-empty) text and the current mood. -/
theorem c8_min_length_guard :
    (∀ (content : String) (mood : Int),
        (jsTrim content).length < 10 → handleSubmit content mood = none) ∧
    (∀ (content : String) (mood : Int) (e : EntryData),
        handleSubmit content mood = some e →
          e.content = jsTrim content ∧ 10 ≤ e.content.length ∧
          e.content ≠ "" ∧ e.mood_rating = mood) := by
  constructor
  · intro content mood h
    unfold handleSubmit
    rw [if_pos h]
  · intro content mood e h
    obtain ⟨hc, hlen, hm⟩ := handleSubmit_some h
    refine ⟨hc, hlen, ?_, hm⟩
    intro hemp
    rw [hemp] at hlen
    simp at hlen

/-- Witness for C8: a 2-character submission sends nothing; an
11-character submission sends its trimmed content with the chosen
mood. -/
theorem c8_witness :
    handleSubmit "hi" 3 = none ∧
    (({ content := "hello world", mood_rating := 4 } : EntryData).content
        = jsTrim "  hello world " ∧
      10 ≤ ({ content := "hello world", mood_rating := 4 } : EntryData).content.length ∧
      ({ content := "hello world", mood_rating := 4 } : EntryData).content ≠ "" ∧
      ({ content := "hello world", mood_rating := 4 } : EntryData).mood_rating = 4) := by
  constructor
  · exact c8_min_length_guard.1 "hi" 3 (by decide)
  · exact c8_min_length_guard.2 "  hello world " 4 _ (by decide)

/-- C9: the mood state starts at 3, is only ever written by the rating
buttons labelled 1-5 or reset to 3, stays in 1..5 under every event
sequence, and therefore every create-entry request issued by the UI
carries a mood rating in 1..5. -/
theorem c9_mood_range :
    moodInit = 3 ∧
    (∀ m : Int, moodStep m .newEntry = 3) ∧
    (∀ (m : Int) (e : UiMoodEvent), 1 ≤ moodStep m e ∧ moodStep m e ≤ 5) ∧
    (∀ evs : List UiMoodEvent, 1 ≤ moodAfter evs ∧ moodAfter evs ≤ 5) ∧
    (∀ (evs : List UiMoodEvent) (content : String) (e : EntryData),
        handleSubmit content (moodAfter evs) = some e →
          1 ≤ e.mood_rating ∧ e.mood_rating ≤ 5) := by
  refine ⟨rfl, fun _ => rfl, moodStep_bounds, ?_, ?_⟩
  · intro evs
    exact moodFold_bounds evs moodInit (by norm_num [moodInit]) (by norm_num [moodInit])
  · intro evs content e h
    obtain ⟨_, _, hm⟩ := handleSubmit_some h
    rw [hm]
    exact moodFold_bounds evs moodInit (by norm_num [moodInit]) (by norm_num [moodInit])

/-- Witness for C9: after clicking the button labelled 5, an accepted
submission carries mood rating 5, which lies in 1..5. -/
theorem c9_witness :
    1 ≤ ({ content := "hello world", mood_rating := 5 } : EntryData).mood_rating ∧
    ({ content := "hello world", mood_rating := 5 } : EntryData).mood_rating ≤ 5 := by
  exact c9_mood_range.2.2.2.2 [.clickRating ⟨4, by decide⟩] "hello world" _ (by decide)

/-- C2: every request the GUI process issues arms a command-specific
timeout (30000 ms for create-entry, 5000 ms for get-entries and
get-stats); when the timer fires while the request is still pending, the
promise is rejected with the armed timeout error and the entry is removed
from the pending map; and once a request id is no longer pending, a late
response or error line carrying it is discarded without settling
anything. -/
theorem c2_timeouts :
    (∀ (s s' : MainState) (e : EntryData) (rid : Int) (w : WireMsg) (tmo : Nat) (terr : String),
        handleCommand s (.createEntry e) = (s', .sent rid w tmo terr) →
          tmo = 30000 ∧ terr = "Python subprocess timeout") ∧
    (∀ (s s' : MainState) (lim : Option Int) (rid : Int) (w : WireMsg) (tmo : Nat) (terr : String),
        handleCommand s (.getEntries lim) = (s', .sent rid w tmo terr) →
          tmo = 5000 ∧ terr = "Timeout") ∧
    (∀ (s s' : MainState) (rid : Int) (w : WireMsg) (tmo : Nat) (terr : String),
        handleCommand s .getStats = (s', .sent rid w tmo terr) →
          tmo = 5000 ∧ terr = "Timeout") ∧
    (∀ (s : MainState) (rid : Int) (msg : String), rid ∈ s.pending →
        step s (.timeoutFire rid msg) =
          { state := { s with pending := mapDelete s.pending rid },
            settles := [.rejected rid msg], writes := [], sentIds := [] }) ∧
    (∀ (s : MainState) (rid : Int) (err : String), rid ∉ s.pending →
        handleLine s (.json "response" (some rid) err) = (s, []) ∧
        handleLine s (.json "error" (some rid) err) = (s, [])) := by
  refine ⟨?_, ?_, ?_, ?_, ?_⟩
  · intro s s' e rid w tmo terr h
    cases hr : s.pythonReady with
    | false =>
      rw [handleCommand_notReady s hr] at h
      exact absurd (congrArg Prod.snd h) (by simp)
    | true =>
      rw [handleCommand_createEntry s hr e] at h
      injection h with h1 h2
      injection h2 with _ _ h3 h4
      exact ⟨h3.symm, h4.symm⟩
  · intro s s' lim rid w tmo terr h
    cases hr : s.pythonReady with
    | false =>
      rw [handleCommand_notReady s hr] at h
      exact absurd (congrArg Prod.snd h) (by simp)
    | true =>
      rw [handleCommand_getEntries s hr lim] at h
      injection h with h1 h2
      injection h2 with _ _ h3 h4
      exact ⟨h3.symm, h4.symm⟩
  · intro s s' rid w tmo terr h
    cases hr : s.pythonReady with
    | false =>
      rw [handleCommand_notReady s hr] at h
      exact absurd (congrArg Prod.snd h) (by simp)
    | true =>
      rw [handleCommand_getStats s hr] at h
      injection h with h1 h2
      injection h2 with _ _ h3 h4
      exact ⟨h3.symm, h4.symm⟩
  · intro s rid msg h
    simp [step, h]
  · intro s rid err h
    exact ⟨handleLine_response_notPending h err, handleLine_error_notPending h err⟩

/-- Witness for C2: a create-entry request from a ready state arms the
30-second timeout; a timeout firing on pending id 0 rejects and removes
it; a late response for a non-pending id settles nothing. -/
theorem c2_witness :
    ((30000 : Nat) = 30000 ∧ "Python subprocess timeout" = "Python subprocess timeout") ∧
    step { pythonReady := true, requestIdCounter := 1, pending := [0] }
        (.timeoutFire 0 "Timeout") =
      { state := { pythonReady := true, requestIdCounter := 1, pending := mapDelete [0] 0 },
        settles := [.rejected 0 "Timeout"], writes := [], sentIds := [] } ∧
    handleLine { pythonReady := true, requestIdCounter := 1, pending := [] }
        (.json "response" (some 0) "") =
      ({ pythonReady := true, requestIdCounter := 1, pending := [] }, []) := by
  refine ⟨?_, ?_, ?_⟩
  · exact c2_timeouts.1 { pythonReady := true, requestIdCounter := 0, pending := [] }
      { pythonReady := true, requestIdCounter := 1, pending := [0] }
      { content := "hello world", mood_rating := 3 } 0
      { command := "create_entry",
        data := .entry { content := "hello world", mood_rating := 3 }, requestId := 0 }
      30000 "Python subprocess timeout" (by decide)
  · exact c2_timeouts.2.2.2.1 _ 0 "Timeout" (by decide)
  · exact (c2_timeouts.2.2.2.2 _ 0 "" (by decide)).1

/-- C3: before the worker has signalled readiness (including after the
worker process exits, which clears the ready flag, and at startup where
it is initially clear), every command fails immediately with the
"Python subprocess not ready" error: nothing is written to stdin, no
request id is consumed, and no pending-map entry is created (the state is
fully unchanged). -/
theorem c3_not_ready :
    initState.pythonReady = false ∧
    (∀ (s : MainState) (code : Int), (step s (.procClose code)).state.pythonReady = false) ∧
    (∀ (s : MainState) (c : IpcCommand), s.pythonReady = false →
        handleCommand s c = (s, .notSent "Python subprocess not ready")) ∧
    (∀ (s : MainState) (c : IpcCommand), s.pythonReady = false →
        step s (.ipc c) =
          { state := s, settles := [.rejectedNoId "Python subprocess not ready"],
            writes := [], sentIds := [] }) := by
  refine ⟨rfl, fun s code => rfl, fun s c h => handleCommand_notReady s h c, ?_⟩
  intro s c h
  simp [step, handleCommand_notReady s h c]

/-- Witness for C3: at application start, a get-stats request fails
immediately, writes nothing and leaves the state untouched. -/
theorem c3_witness :
    step initState (.ipc .getStats) =
      { state := initState,
        settles := [.rejectedNoId "Python subprocess not ready"],
        writes := [], sentIds := [] } := by
  exact c3_not_ready.2.2.2 initState .getStats rfl

/-- C6: a line of worker stdout that does not parse as JSON is treated as
a plain log message: the state (including the ready flag and the pending
map) is unchanged, no promise is resolved or rejected, and nothing is
written or allocated. -/
theorem c6_non_json_line (s : MainState) (raw : String) :
    step s (.pyLine (.notJson raw)) =
      { state := s, settles := [], writes := [], sentIds := [] } := rfl

/-- C7: every string written to the worker's stdin is exactly one
newline-terminated JSON object `{command, data, requestId}` whose
requestId is the integer counter value, containing no other raw newline;
and the only commands ever sent are `create_entry` (carrying the entry's
content and mood rating), `get_entries` (carrying a limit, 20 when the
caller omitted it) and `get_stats` (carrying an empty object). -/
theorem c7_wire_format :
    ∀ (s : MainState) (c : IpcCommand) (w : String),
      w ∈ (step s (.ipc c)).writes →
      ∃ m : WireMsg,
        w = stringifyWireMsg m ++ "\n" ∧
        noNewline (stringifyWireMsg m) ∧
        m.requestId = s.requestIdCounter ∧
        ((∃ e, c = .createEntry e ∧ m.command = "create_entry" ∧ m.data = .entry e) ∨
         (∃ lim, c = .getEntries lim ∧ m.command = "get_entries" ∧
            m.data = .limitData (lim.getD 20)) ∨
         (c = .getStats ∧ m.command = "get_stats" ∧ m.data = .emptyData)) := by
  intro s c w hw
  cases hr : s.pythonReady with
  | false =>
    rw [show step s (.ipc c) =
          { state := s, settles := [.rejectedNoId "Python subprocess not ready"],
            writes := [], sentIds := [] } from by
        simp [step, handleCommand_notReady s hr c]] at hw
    exact absurd hw (by simp)
  | true =>
    cases c with
    | createEntry e =>
      rw [show (step s (.ipc (.createEntry e))).writes =
            [wireLine { command := "create_entry", data := .entry e,
                        requestId := s.requestIdCounter }] from by
          simp [step, handleCommand_createEntry s hr e]] at hw
      simp only [List.mem_singleton] at hw
      subst hw
      exact ⟨_, rfl, noNewline_stringifyWireMsg _, rfl, Or.inl ⟨e, rfl, rfl, rfl⟩⟩
    | getEntries lim =>
      rw [show (step s (.ipc (.getEntries lim))).writes =
            [wireLine { command := "get_entries", data := .limitData (lim.getD 20),
                        requestId := s.requestIdCounter }] from by
          simp [step, handleCommand_getEntries s hr lim]] at hw
      simp only [List.mem_singleton] at hw
      subst hw
      exact ⟨_, rfl, noNewline_stringifyWireMsg _, rfl, Or.inr (Or.inl ⟨lim, rfl, rfl, rfl⟩)⟩
    | getStats =>
      rw [show (step s (.ipc .getStats)).writes =
            [wireLine { command := "get_stats", data := .emptyData,
                        requestId := s.requestIdCounter }] from by
          simp [step, handleCommand_getStats s hr]] at hw
      simp only [List.mem_singleton] at hw
      subst hw
      exact ⟨_, rfl, noNewline_stringifyWireMsg _, rfl, Or.inr (Or.inr ⟨rfl, rfl, rfl⟩)⟩

/-- Witness for C7: the get-stats request sent from a ready state with
counter 0 is a single newline-terminated JSON object for the `get_stats`
command. -/
theorem c7_witness :
    ∃ m : WireMsg,
      wireLine { command := "get_stats", data := .emptyData, requestId := 0 }
          = stringifyWireMsg m ++ "\n" ∧
        noNewline (stringifyWireMsg m) ∧
        m.requestId = (0 : Int) ∧
        ((∃ e, IpcCommand.getStats = .createEntry e ∧ m.command = "create_entry" ∧
            m.data = .entry e) ∨
         (∃ lim, IpcCommand.getStats = .getEntries lim ∧ m.command = "get_entries" ∧
            m.data = .limitData (lim.getD 20)) ∨
         (IpcCommand.getStats = .getStats ∧ m.command = "get_stats" ∧
            m.data = .emptyData)) := by
  exact c7_wire_format { pythonReady := true, requestIdCounter := 0, pending := [] }
    .getStats _ (by simp [step, handleCommand, sendToPython, wireLine])

/-- C5: request identifiers are strictly monotonically increasing: every
successful send consumes the current counter value as its request id and
increments the counter; hence along any execution from application start,
the ids are allocated in strictly increasing order (a later request
carries a strictly larger id), and the pending map never holds two
requests with the same identifier. -/
theorem c5_monotonic_ids :
    (∀ (s : MainState) (c : IpcCommand) (s' : MainState) (rid : Int) (w : WireMsg)
        (tmo : Nat) (terr : String),
        handleCommand s c = (s', .sent rid w tmo terr) →
          rid = s.requestIdCounter ∧ s'.requestIdCounter = s.requestIdCounter + 1) ∧
    (∀ evs : List MainEvent, List.Pairwise (· < ·) (runT evs).sentIds) ∧
    (∀ evs : List MainEvent, (runT evs).state.pending.Nodup) := by
  refine ⟨?_, fun evs => (runT_inv evs).2.2.1, fun evs => (runT_inv evs).1⟩
  intro s c s' rid w tmo terr h
  cases hr : s.pythonReady with
  | false =>
    rw [handleCommand_notReady s hr] at h
    exact absurd (congrArg Prod.snd h) (by simp)
  | true =>
    cases c with
    | createEntry e =>
      rw [handleCommand_createEntry s hr e] at h
      injection h with h1 h2
      injection h2 with h3 _ _ _
      exact ⟨h3.symm, by rw [← h1]⟩
    | getEntries lim =>
      rw [handleCommand_getEntries s hr lim] at h
      injection h with h1 h2
      injection h2 with h3 _ _ _
      exact ⟨h3.symm, by rw [← h1]⟩
    | getStats =>
      rw [handleCommand_getStats s hr] at h
      injection h with h1 h2
      injection h2 with h3 _ _ _
      exact ⟨h3.symm, by rw [← h1]⟩

/-- Witness for C5: from a ready state with counter 0, a get-stats send
consumes id 0 and leaves the counter at 1. -/
theorem c5_witness :
    (0 : Int) =
      ({ pythonReady := true, requestIdCounter := 0, pending := [] } : MainState).requestIdCounter ∧
    ({ pythonReady := true, requestIdCounter := 1, pending := [0] } : MainState).requestIdCounter =
      ({ pythonReady := true, requestIdCounter := 0, pending := [] } : MainState).requestIdCounter
        + 1 := by
  exact c5_monotonic_ids.1 { pythonReady := true, requestIdCounter := 0, pending := [] }
    .getStats { pythonReady := true, requestIdCounter := 1, pending := [0] } 0
    { command := "get_stats", data := .emptyData, requestId := 0 } 5000 "Timeout" (by decide)

/-- C10: every pending request is settled at most once: each settling
path invokes a stored handler only for an id that is still in the pending
map and removes it in the same step, so along any execution from
application start no id is ever settled twice, and the map retains no
entry for an already-settled request. -/
theorem c10_settle_once :
    (∀ (s : MainState) (e : MainEvent), ∀ x ∈ settledIds (step s e).settles,
        x ∈ s.pending ∧ x ∉ (step s e).state.pending) ∧
    (∀ evs : List MainEvent, (settledIds (runT evs).settles).Nodup) ∧
    (∀ evs : List MainEvent, ∀ x ∈ settledIds (runT evs).settles,
        x ∉ (runT evs).state.pending) := by
  refine ⟨?_, fun evs => (runT_inv evs).2.2.2.2.1,
    fun evs x hx => ((runT_inv evs).2.2.2.2.2 x hx).2⟩
  intro s e x hx
  cases e with
  | ipc c =>
    cases hr : s.pythonReady with
    | false =>
      rw [show step s (.ipc c) =
            { state := s, settles := [.rejectedNoId "Python subprocess not ready"],
              writes := [], sentIds := [] } from by
          simp [step, handleCommand_notReady s hr c]] at hx
      exact absurd hx (by simp [settledIds])
    | true =>
      obtain ⟨w, hstep⟩ := step_ipc_ready s hr c
      rw [hstep] at hx
      exact absurd hx (by simp [settledIds])
  | pyLine l =>
    rcases handleLine_cases s l with ⟨b, hl⟩ | ⟨rid, st, hmem, hid, hl⟩
    · have hs : (step s (.pyLine l)).settles = [] := by simp [step, hl]
      rw [hs] at hx
      exact absurd hx (by simp [settledIds])
    · have hs : (step s (.pyLine l)).settles = [st] := by simp [step, hl]
      have hst : (step s (.pyLine l)).state =
          { s with pending := mapDelete s.pending rid } := by simp [step, hl]
      rw [hs, hid, List.mem_singleton] at hx
      subst hx
      rw [hst]
      exact ⟨hmem, fun hmem' => (mem_mapDelete.mp hmem').2 rfl⟩
  | timeoutFire rid msg =>
    by_cases hmem : rid ∈ s.pending
    · have hs : (step s (.timeoutFire rid msg)).settles = [.rejected rid msg] := by
        simp [step, hmem]
      have hst : (step s (.timeoutFire rid msg)).state =
          { s with pending := mapDelete s.pending rid } := by simp [step, hmem]
      rw [hs, settledIds_rejected, List.mem_singleton] at hx
      subst hx
      rw [hst]
      exact ⟨hmem, fun hmem' => (mem_mapDelete.mp hmem').2 rfl⟩
    · have hs : (step s (.timeoutFire rid msg)).settles = [] := by simp [step, hmem]
      rw [hs] at hx
      exact absurd hx (by simp [settledIds])
  | procClose code =>
    have hs : (step s (.procClose code)).settles = [] := rfl
    rw [hs] at hx
    exact absurd hx (by simp [settledIds])

/-- Witness for C10: a response line settling pending id 0 establishes
that 0 was pending before and is not pending afterwards. -/
theorem c10_witness :
    (0 : Int) ∈ ({ pythonReady := true, requestIdCounter := 1, pending := [0] } : MainState).pending ∧
    (0 : Int) ∉ (step { pythonReady := true, requestIdCounter := 1, pending := [0] }
        (.pyLine (.json "response" (some 0) ""))).state.pending := by
  exact c10_settle_once.1 { pythonReady := true, requestIdCounter := 1, pending := [0] }
    (.pyLine (.json "response" (some 0) "")) 0 (by decide)

end Introspect
